import Mathlib

/-!
Verification of the mlog asynchronous logging core.

The Go sources are shallowly embedded: machine integers become `Int`,
strings become `String`, the entry channel becomes a FIFO `List`, the
background delivery goroutine becomes a structurally recursive function
producing a trace of per-target events, and every stateful method becomes
a pure function from the receiver state to an updated state plus its
observable outputs (lines written, error-writer output, delivery events).
-/

namespace Mlog

/-- Go `type Level int` (logger.go). Lower rank = more severe. -/
abbrev Level := Int

/-- `LevelPanic Level = iota + 2` (logger.go). -/
def LevelPanic : Level := 2

/-- `LevelError` = 3 (logger.go). -/
def LevelError : Level := 3

/-- `LevelWarning` = 4 (logger.go). -/
def LevelWarning : Level := 4

/-- `LevelSuccess` = 5 (logger.go); the LU generation names rank 5 `LevelOkay`. -/
def LevelSuccess : Level := 5

/-- `LevelOkay` = 5, same rank as `LevelSuccess` (console_details.go uses it). -/
def LevelOkay : Level := 5

/-- `LevelInfo` = 6 (logger.go). -/
def LevelInfo : Level := 6

/-- `LevelProgress` = 7 (logger.go). -/
def LevelProgress : Level := 7

/-- `LevelDbg` = 8 (logger.go). -/
def LevelDbg : Level := 8

/-- Go `type Entry struct` (logger.go). `Time` is the capture instant,
modelled as an abstract tick; `CallStack` is the string captured by
`GetCallStack` (runtime-dependent, supplied as an oracle to `Log`). -/
structure Entry where
  Level : Level
  Category : String
  Message : String
  Time : Nat
  CallStack : String
  FormattedMessage : String
deriving DecidableEq

/-- Go `func (e *Entry) String() string` (logger.go): returns the
formatted message. -/
def Entry.String (e : Entry) : String :=
  e.FormattedMessage

/-- Modelled from the spec: the `Filter` type embedded by every built-in
target lives in a file that is not under src/ (only its callers are).
Per spec section 4.1 it carries the configured `MaxLevel` ceiling. -/
structure Filter where
  MaxLevel : Level
deriving DecidableEq

/-- Modelled from the spec: `Allow(entry)` on a target filter is
`entry.Level <= target.MaxLevel` (numerically; lower rank = more severe
= always allowed by a looser filter). -/
def Filter.Allow (f : Filter) (e : Entry) : Bool :=
  e.Level ≤ f.MaxLevel

/-- A registered target as the dispatcher core sees it: an identity and
the outcome of its `Open(errWriter)` call (`none` = success, `some msg` =
the error it returns). All other target behaviour is observed through
the delivery-event trace. -/
structure GTarget where
  id : Nat
  openErr : Option String
deriving DecidableEq

/-- Go `type coreLogger struct` (logger.go). The `entries` channel is a
FIFO list; `ErrorWriterSet` models `ErrorWriter != nil`; `loopStarted`
records that `go l.process()` was launched. -/
structure coreLogger where
  openFlag : Bool
  entries : List Entry
  ErrorWriterSet : Bool
  BufferSize : Int
  CallStackDepth : Int
  CallStackFilter : String
  MaxLevel : Level
  Targets : List GTarget
  loopStarted : Bool
deriving DecidableEq

/-- Go `type Logger struct` (logger.go): the category view. The embedded
shared `*coreLogger` is passed explicitly to each operation. Go gives
`Formatter` the `*Logger` as first argument as well; no formatter in the
repository reads anything from it that the `Entry` does not carry, and no
claim depends on it, so the embedding takes the `Entry` only. -/
structure Logger where
  Category : String
  Formatter : Entry → String

/-- Go `func (l *Logger) Log(level, format, a ...)` (logger.go lines
175-194). `sprintf` stands for `fmt.Sprintf` applied to the variadic
arguments, `now` for `time.Now()`, and `stack` for the string
`GetCallStack` would capture (runtime-dependent). Returns the updated
core state and the entry that was built and enqueued, if any. -/
def Logger.Log (lg : Logger) (l : coreLogger) (level : Level) (format : String)
    (a : List String) (sprintf : String → List String → String)
    (now : Nat) (stack : String) : coreLogger × Option Entry :=
  if level > l.MaxLevel ∨ l.openFlag = false then
    (l, none)
  else
    let message := if a.length > 0 then sprintf format a else format
    let entry0 : Entry :=
      { Level := level, Category := lg.Category, Message := message,
        Time := now,
        CallStack := if l.CallStackDepth > 0 then stack else "",
        FormattedMessage := "" }
    let entry := { entry0 with FormattedMessage := lg.Formatter entry0 }
    ({ l with entries := l.entries ++ [entry] }, some entry)

/-- Go `func (l *coreLogger) Open() error` (logger.go lines 198-232).
Result: updated state, the returned error, and the lines written to the
error writer for targets whose `Open` failed. Targets that fail to open
are dropped; the kept targets preserve registration order. -/
def coreLogger.Open (l : coreLogger) : coreLogger × Option String × List String :=
  if l.openFlag then (l, none, [])
  else if l.ErrorWriterSet = false then
    (l, some "Logger.ErrorWriter must be set.", [])
  else if l.BufferSize < 0 then
    (l, some "Logger.BufferSize must be no less than 0.", [])
  else if l.CallStackDepth < 0 then
    (l, some "Logger.CallStackDepth must be no less than 0.", [])
  else
    ({ l with entries := [],
              Targets := l.Targets.filter (fun t => t.openErr.isNone),
              loopStarted := true,
              openFlag := true },
     none,
     (l.Targets.filter (fun t => t.openErr.isSome)).map
       (fun t => "Failed to open target: " ++ t.openErr.getD ""))

/-- One observable call made by the dispatcher on a target, identified by
the target id: `Process` with a real entry, `Process(nil)` (the sentinel),
or `Close`. -/
inductive Ev where
  | proc (tid : Nat) (e : Entry)
  | procSentinel (tid : Nat)
  | closeT (tid : Nat)
deriving DecidableEq

/-- Go `func (l *coreLogger) process()` (logger.go lines 235-245): dequeue
an entry, call `Process` on every target in registration order, stop after
delivering the nil sentinel to all of them. The channel contents are the
argument list; `none` is the nil poison pill. -/
def processLoop (tids : List Nat) : List (Option Entry) → List Ev
  | [] => []
  | some e :: rest =>
      tids.map (fun u => Ev.proc u e) ++ processLoop tids rest
  | none :: _ =>
      tids.map Ev.procSentinel

/-- Go `func (l *coreLogger) Close()` (logger.go lines 250-260): no-op when
not open; otherwise clear the open flag, enqueue the nil sentinel, and call
`Close()` on every target in registration order. Each built-in target
blocks its `Close()` on an unbuffered handshake channel that its own
`Process(nil)` signals, and the channel is FIFO, so per target every queued
entry is processed, then the sentinel, then `Close` returns; the trace
below serialises the loop before the `Close` calls, which realises exactly
that per-target order. -/
def coreLogger.Close (l : coreLogger) : coreLogger × List Ev :=
  if l.openFlag = false then (l, [])
  else
    ({ l with openFlag := false, entries := [] },
     processLoop (l.Targets.map GTarget.id) (l.entries.map some ++ [none])
       ++ (l.Targets.map GTarget.id).map Ev.closeT)

/-- The target id an event is addressed to. -/
def evTid : Ev → Nat
  | Ev.proc u _ => u
  | Ev.procSentinel u => u
  | Ev.closeT u => u

/-- Whether an event is addressed to target `t`. -/
def evAt (t : Nat) (ev : Ev) : Bool :=
  evTid ev == t

/-- The entry a `Process` call at target `t` delivers, if the event is a
real-entry delivery at `t`. -/
def realProcAt (t : Nat) : Ev → Option Entry
  | Ev.proc u e => if u == t then some e else none
  | Ev.procSentinel _ => none
  | Ev.closeT _ => none

/-- Go `type DetailsFormatter func(*Logger, *Entry, []string) string`
(details file). As with `Formatter`, the `*Logger` argument is unused by
the repository formatters and is dropped in the embedding. -/
abbrev DetailsFormatter := Entry → List String → String

/-- Go `type DetailsInfo struct` (details file): the per-target cursor of
the details-block sub-protocol. Embedded BY VALUE in details-capable
targets. -/
structure DetailsInfo where
  DoingDetails : Bool
  MinLogLevel : Level
  Category : String
  Subcategory : String
  formatter : DetailsFormatter

/-- Go `func newConsoleBrush(format string) consoleBrush` (console file):
wraps text in an ANSI escape sequence. -/
def newConsoleBrush (format : String) : String → String :=
  fun text => "\x1b[" ++ format ++ "m" ++ text ++ "\x1b[0m"

/-- Whether `pat` occurs as a contiguous sublist; worker for `strContains`. -/
def listContainsSub (pat : List Char) : List Char → Bool
  | [] => pat.isEmpty
  | c :: rest => pat.isPrefixOf (c :: rest) || listContainsSub pat rest

/-- Go `strings.Contains(s, sub)`. -/
def strContains (s sub : String) : Bool :=
  listContainsSub sub.toList s.toList

/-- The ANSI escape lead-in `"\033["` that the new `ConsoleTarget.Process`
tests for before applying a brush. -/
def escSeq : String := "\x1b["

/-- Go `var Brushes = map[Level]consoleBrush` (new console file). The Go
map also holds a `GreenBG` key whose rank is defined outside src/ and
which no `Entry` level reaches; it is omitted, and no claim depends
on it. -/
def Brushes (l : Level) : Option (String → String) :=
  if l = LevelDbg then some (newConsoleBrush "1;36")
  else if l = LevelProgress then some (newConsoleBrush "36")
  else if l = LevelInfo then some (newConsoleBrush "36")
  else if l = LevelOkay then some (newConsoleBrush "32")
  else if l = LevelWarning then some (newConsoleBrush "33")
  else if l = LevelError then some (newConsoleBrush "31")
  else if l = LevelPanic then some (newConsoleBrush "1;95")
  else none

/-- Go `type ConsoleTarget struct` (new console file): embedded `*Filter`,
colour mode, the writer (outputs are returned as a list of written lines),
the embedded-by-value `DetailsInfo`, and the NEW category labels. The
unbuffered `close` handshake channel is represented at the dispatcher
level by the event trace, not as a field. -/
structure ConsoleTarget where
  filter : Filter
  ColorMode : Bool
  details : DetailsInfo
  Category : String
  Subcategory : String

/-- Go `func (t *ConsoleTarget) Process(e *Entry)` (new console file,
lines 100-118): nil entry signals the close handshake (nothing written);
otherwise an entry the filter rejects is dropped; otherwise the formatted
message is written, brushed with the level colour only when `ColorMode`
is on AND the message does not already contain `"\033["`. The returned
list holds the lines passed to `Fprintln` (which appends a newline).
`Process` never mutates the target state. -/
def ConsoleTarget.Process (t : ConsoleTarget) (e : Option Entry) :
    ConsoleTarget × List String :=
  match e with
  | none => (t, [])
  | some e =>
    if !(t.filter.Allow e) then (t, [])
    else
      let msg := e.String
      let msg :=
        if t.ColorMode then
          if !(strContains msg escSeq) then
            match Brushes e.Level with
            | some brush => brush msg
            | none => msg
          else msg
        else msg
      (t, [msg])

/-- Go `func (t *ConsoleTarget) StartLogDetailsBlock(sCatg, E)`
(console_details.go lines 3-10): processes the header entry, then does
`di := t.DetailsInfo` — which, the field being embedded BY VALUE, copies
the struct — and assigns `DoingDetails`, `MinLogLevel`, `Category`,
`Subcategory` on the local copy `di` only. The copy is dropped when the
function returns, so the receiver state it leaves behind is exactly the
state `Process` left. -/
def ConsoleTarget.StartLogDetailsBlock (t : ConsoleTarget) (sCatg : String)
    (E : Option Entry) : ConsoleTarget × List String :=
  let r := t.Process E
  let di := r.1.details
  let _ := { di with DoingDetails := true, MinLogLevel := LevelOkay,
                     Category := sCatg, Subcategory := "" }
  r

/-- Go `func (t *ConsoleTarget) CloseLogDetailsBlock(s string)`
(console_details.go lines 12-14): the body is empty. -/
def ConsoleTarget.CloseLogDetailsBlock (t : ConsoleTarget) (_ : String) :
    ConsoleTarget :=
  t

/-- A details-block round trip on a `ConsoleTarget`: start the block with
a header entry, process `es` while the block is open, close the block. -/
def detailsRoundTrip (t : ConsoleTarget) (cat : String) (e0 : Entry)
    (es : List Entry) (s : String) : ConsoleTarget :=
  let t1 := (t.StartLogDetailsBlock cat (some e0)).1
  let t2 := es.foldl (fun acc e => (acc.Process (some e)).1) t1
  t2.CloseLogDetailsBlock s

/-- Go `type FileTarget struct` (file.go): embedded `*Filter`, the file
name, rotation configuration, the optional open file descriptor, and the
running byte count. `reopenOk` is the oracle for whether `os.OpenFile`
succeeds when `rotate` reopens the log file; `errWriter` output and the
lines written to the file are returned by `Process`. -/
structure FileTarget where
  filter : Filter
  FileName : String
  Rotate : Bool
  BackupCount : Int
  MaxBytes : Int
  fd : Option Unit
  currentBytes : Int
  reopenOk : Bool
deriving DecidableEq

/-- Go `func (t *FileTarget) rotate(bytes int64)` (file.go lines 128-156):
returns unchanged unless the incoming write would overflow `MaxBytes` (and
is itself no larger than `MaxBytes`); otherwise closes the file, resets
the byte count, shuffles the backup files on the filesystem (outside the
model), and reopens the log file — on failure `fd` becomes nil and the
failure is written to the error writer. -/
def FileTarget.rotate (t : FileTarget) (bytes : Int) : FileTarget × List String :=
  if t.currentBytes + bytes ≤ t.MaxBytes ∨ bytes > t.MaxBytes then (t, [])
  else
    let t1 := { t with currentBytes := 0 }
    if t1.reopenOk then ({ t1 with fd := some () }, [])
    else ({ t1 with fd := none },
          ["FileTarget was unable to create a log file: open error"])

/-- Go `func (t *FileTarget) Process(e *Entry)` (file.go lines 88-104).
Result: updated state, lines written to the log file, lines written to the
error writer. A nil entry closes the descriptor and signals the close
handshake. A real entry is handled only when `t.fd != nil` AND the filter
allows it: rotation first (when configured), then the write — on a nil
descriptor (rotation reopen failed inside this same call) `fd.Write`
returns `(0, ErrInvalid)` without panicking and the error is reported
(with the `FileTarge` typo of the source). -/
def FileTarget.Process (t : FileTarget) (e : Option Entry) :
    FileTarget × List String × List String :=
  match e with
  | none => ({ t with fd := none }, [], [])
  | some e =>
    if t.fd.isSome && t.filter.Allow e then
      let r := if t.Rotate then t.rotate ((e.String.length : Int) + 1) else (t, [])
      match r.1.fd with
      | some _ =>
        ({ r.1 with currentBytes := r.1.currentBytes + ((e.String.length : Int) + 1) },
         [e.String ++ "\n"], r.2)
      | none =>
        (r.1, [], r.2 ++ ["FileTarge write error: invalid argument\n"])
    else (t, [], [])

/-- `Process` over a list of real entries in order, concatenating the file
and error-writer outputs. -/
def FileTarget.processAll (t : FileTarget) :
    List Entry → FileTarget × List String × List String
  | [] => (t, [], [])
  | e :: rest =>
    let r := t.Process (some e)
    let r2 := r.1.processAll rest
    (r2.1, r.2.1 ++ r2.2.1, r.2.2 ++ r2.2.2)

/-- One `Log` call: its level, format string, variadic arguments, capture
instant and captured call stack. -/
structure LogCall where
  level : Level
  format : String
  args : List String
  now : Nat
  stack : String
deriving DecidableEq

/-- The entry `Logger.Log` builds for a call it accepts, given the
formatter view, the sprintf oracle and the configured call-stack depth. -/
def builtEntry (lg : Logger) (sprintf : String → List String → String)
    (depth : Int) (c : LogCall) : Entry :=
  let message := if c.args.length > 0 then sprintf c.format c.args else c.format
  let entry0 : Entry :=
    { Level := c.level, Category := lg.Category, Message := message,
      Time := c.now,
      CallStack := if depth > 0 then c.stack else "",
      FormattedMessage := "" }
  { entry0 with FormattedMessage := lg.Formatter entry0 }

/-- A sequence of `Log` calls on one logger view, threaded through the
shared core state. -/
def logMany (lg : Logger) (sprintf : String → List String → String)
    (l : coreLogger) (calls : List LogCall) : coreLogger :=
  calls.foldl
    (fun s c => (Logger.Log lg s c.level c.format c.args sprintf c.now c.stack).1) l

lemma log_rejected (lg : Logger) (l : coreLogger) (level : Level)
    (format : String) (a : List String)
    (sprintf : String → List String → String) (now : Nat) (stack : String)
    (h : level > l.MaxLevel ∨ l.openFlag = false) :
    Logger.Log lg l level format a sprintf now stack = (l, none) := by
  simp only [Logger.Log, if_pos h]

lemma log_accepted (lg : Logger) (l : coreLogger) (level : Level)
    (format : String) (a : List String)
    (sprintf : String → List String → String) (now : Nat) (stack : String)
    (hopen : l.openFlag = true) (hlev : level ≤ l.MaxLevel) :
    Logger.Log lg l level format a sprintf now stack =
      ({ l with entries := l.entries ++
          [builtEntry lg sprintf l.CallStackDepth ⟨level, format, a, now, stack⟩] },
       some (builtEntry lg sprintf l.CallStackDepth ⟨level, format, a, now, stack⟩)) := by
  have hc : ¬ (level > l.MaxLevel ∨ l.openFlag = false) := by
    push_neg
    exact ⟨hlev, by simp [hopen]⟩
  simp only [Logger.Log, if_neg hc]
  rfl

lemma logMany_entries (lg : Logger) (sprintf : String → List String → String) :
    ∀ (calls : List LogCall) (l : coreLogger), l.openFlag = true →
      (∀ c ∈ calls, c.level ≤ l.MaxLevel) →
      logMany lg sprintf l calls =
        { l with entries := l.entries ++
            calls.map (builtEntry lg sprintf l.CallStackDepth) } := by
  intro calls
  induction calls with
  | nil =>
    intro l _ _
    simp [logMany]
  | cons c rest ih =>
    intro l hopen hacc
    have hc : c.level ≤ l.MaxLevel := hacc c (List.mem_cons_self c rest)
    simp only [logMany, List.foldl_cons]
    rw [show (Logger.Log lg l c.level c.format c.args sprintf c.now c.stack).1 =
        { l with entries := l.entries ++
            [builtEntry lg sprintf l.CallStackDepth c] } from by
      rw [log_accepted lg l c.level c.format c.args sprintf c.now c.stack hopen hc]]
    have := ih { l with entries := l.entries ++
        [builtEntry lg sprintf l.CallStackDepth c] }
      (by simpa using hopen)
      (by intro d hd; simpa using hacc d (List.mem_cons_of_mem c hd))
    simp only [logMany] at this
    rw [this]
    simp

lemma processLoop_spec (tids : List Nat) (es : List Entry) :
    processLoop tids (es.map some ++ [none]) =
      es.flatMap (fun e => tids.map (fun u => Ev.proc u e))
        ++ tids.map Ev.procSentinel := by
  induction es with
  | nil => simp [processLoop]
  | cons e rest ih => simp [processLoop, ih]

lemma evAt_proc (t u : Nat) (e : Entry) :
    evAt t (Ev.proc u e) = (u == t) := rfl

lemma evAt_procSentinel (t u : Nat) :
    evAt t (Ev.procSentinel u) = (u == t) := rfl

lemma evAt_closeT (t u : Nat) :
    evAt t (Ev.closeT u) = (u == t) := rfl

lemma filter_map_not_mem (t : Nat) (g : Nat → Ev)
    (hg : ∀ u, evAt t (g u) = (u == t)) :
    ∀ tids : List Nat, t ∉ tids → (tids.map g).filter (evAt t) = [] := by
  intro tids
  induction tids with
  | nil => intro _; rfl
  | cons u rest ih =>
    intro h
    have hu : u ≠ t := fun hq => h (hq ▸ List.mem_cons_self u rest)
    have ht : t ∉ rest := fun hq => h (List.mem_cons_of_mem u hq)
    simp only [List.map_cons, List.filter_cons, hg u]
    rw [if_neg (by simp [hu])]
    exact ih ht

lemma filter_map_nodup (t : Nat) (g : Nat → Ev)
    (hg : ∀ u, evAt t (g u) = (u == t)) :
    ∀ tids : List Nat, tids.Nodup → t ∈ tids →
      (tids.map g).filter (evAt t) = [g t] := by
  intro tids
  induction tids with
  | nil => intro _ h; exact absurd h (List.not_mem_nil t)
  | cons u rest ih =>
    intro hnd hmem
    rcases List.nodup_cons.mp hnd with ⟨hurest, hndrest⟩
    simp only [List.map_cons, List.filter_cons, hg u]
    by_cases hu : u = t
    · rw [hu] at hurest
      rw [if_pos (by simp [hu])]
      rw [filter_map_not_mem t g hg rest hurest, hu]
    · rw [if_neg (by simp [hu])]
      exact ih hndrest (by
        rcases List.mem_cons.mp hmem with h | h
        · exact absurd h.symm hu
        · exact h)

lemma filter_bind_procs (tids : List Nat) (t : Nat) (es : List Entry)
    (hnd : tids.Nodup) (hmem : t ∈ tids) :
    (es.flatMap (fun e => tids.map (fun u => Ev.proc u e))).filter (evAt t) =
      es.map (fun e => Ev.proc t e) := by
  induction es with
  | nil => simp
  | cons e rest ih =>
    simp only [List.flatMap_cons, List.filter_append, ih, List.map_cons]
    rw [filter_map_nodup t (fun u => Ev.proc u e) (fun u => rfl) tids hnd hmem]
    rfl

lemma filterMap_real_map_not_mem (t : Nat) (e : Entry) :
    ∀ tids : List Nat, t ∉ tids →
      (tids.map (fun u => Ev.proc u e)).filterMap (realProcAt t) = [] := by
  intro tids
  induction tids with
  | nil => intro _; rfl
  | cons u rest ih =>
    intro h
    have hu : u ≠ t := fun hq => h (hq ▸ List.mem_cons_self u rest)
    have ht : t ∉ rest := fun hq => h (List.mem_cons_of_mem u hq)
    simp only [List.map_cons, List.filterMap_cons, realProcAt]
    rw [if_neg (by simp [hu])]
    exact ih ht

lemma filterMap_real_map_nodup (t : Nat) (e : Entry) :
    ∀ tids : List Nat, tids.Nodup → t ∈ tids →
      (tids.map (fun u => Ev.proc u e)).filterMap (realProcAt t) = [e] := by
  intro tids
  induction tids with
  | nil => intro _ h; exact absurd h (List.not_mem_nil t)
  | cons u rest ih =>
    intro hnd hmem
    rcases List.nodup_cons.mp hnd with ⟨hurest, hndrest⟩
    simp only [List.map_cons, List.filterMap_cons, realProcAt]
    by_cases hu : u = t
    · rw [hu] at hurest
      rw [if_pos (by simp [hu])]
      rw [filterMap_real_map_not_mem t e rest hurest]
    · rw [if_neg (by simp [hu])]
      exact ih hndrest (by
        rcases List.mem_cons.mp hmem with h | h
        · exact absurd h.symm hu
        · exact h)

lemma filterMap_real_sentinels (t : Nat) (tids : List Nat) :
    (tids.map Ev.procSentinel).filterMap (realProcAt t) = [] := by
  induction tids with
  | nil => rfl
  | cons u rest ih => simp [List.filterMap_cons, realProcAt, ih]

lemma filterMap_real_bind (t : Nat) (es : List Entry) (tids : List Nat)
    (hnd : tids.Nodup) (hmem : t ∈ tids) :
    (es.flatMap (fun e => tids.map (fun u => Ev.proc u e))).filterMap (realProcAt t) =
      es := by
  induction es with
  | nil => simp
  | cons e rest ih =>
    simp only [List.flatMap_cons, List.filterMap_append, ih]
    rw [filterMap_real_map_nodup t e tids hnd hmem]
    rfl

lemma evTid_mem_processLoop (tids : List Nat) :
    ∀ (q : List (Option Entry)) (ev : Ev), ev ∈ processLoop tids q →
      evTid ev ∈ tids := by
  intro q
  induction q with
  | nil => intro ev h; exact absurd h (List.not_mem_nil ev)
  | cons oe rest ih =>
    intro ev h
    match oe with
    | some e =>
      simp only [processLoop, List.mem_append] at h
      rcases h with h | h
      · rcases List.mem_map.mp h with ⟨u, hu, rfl⟩
        exact hu
      · exact ih ev h
    | none =>
      simp only [processLoop] at h
      rcases List.mem_map.mp h with ⟨u, hu, rfl⟩
      exact hu

/-! Concrete fixtures used by the witnesses. -/

/-- A concrete logger view: default category, identity-style formatter. -/
def lg0 : Logger :=
  { Category := "app", Formatter := fun e => e.Message }

/-- A concrete sprintf oracle. -/
def spf0 : String → List String → String :=
  fun f a => f ++ a.foldl (fun acc s => acc ++ s) ""

/-- A freshly constructed (closed) core logger with the `NewLogger`
defaults. -/
def lClosed : coreLogger :=
  { openFlag := false, entries := [], ErrorWriterSet := true,
    BufferSize := 1024, CallStackDepth := 0, CallStackFilter := "",
    MaxLevel := LevelDbg, Targets := [], loopStarted := false }

/-- The same core logger after a successful `Open`. -/
def lOpen : coreLogger :=
  { lClosed with openFlag := true, loopStarted := true }

/-- A closed core logger with a negative buffer size. -/
def lBadBuf : coreLogger :=
  { lClosed with BufferSize := -1 }

/-- A concrete info entry. -/
def e1 : Entry :=
  { Level := LevelInfo, Category := "app", Message := "count=2",
    Time := 0, CallStack := "", FormattedMessage := "count=2" }

/-- A concrete error entry. -/
def e2 : Entry :=
  { Level := LevelError, Category := "app", Message := "boom",
    Time := 1, CallStack := "", FormattedMessage := "boom" }

/-- An open core logger with two successfully opened targets and two
queued entries. -/
def lTwoTargets : coreLogger :=
  { lOpen with Targets := [⟨0, none⟩, ⟨1, none⟩], entries := [e1, e2] }

/-- An open core logger with two targets and an empty queue. -/
def lTwoEmpty : coreLogger :=
  { lOpen with Targets := [⟨0, none⟩, ⟨1, none⟩] }

/-- A closed core logger with one good target and one whose `Open` fails. -/
def lOneBad : coreLogger :=
  { lClosed with Targets := [⟨0, none⟩, ⟨1, some "no tty"⟩] }

/-- Two concrete `Log` calls. -/
def callsC2 : List LogCall :=
  [⟨LevelInfo, "count=%d", ["2"], 0, ""⟩, ⟨LevelError, "boom", [], 1, ""⟩]

/-! Claim theorems. -/

/-- Claim C1: when `Close()` is called on an open dispatcher with K
entries queued, each active target observes — by the time `Close`
returns — exactly the K `Process` calls with the queued entries in FIFO
order, then the sentinel `Process(nil)`, then exactly one `Close` call,
and nothing afterwards; the dispatcher ends closed with an empty queue,
so nothing is delivered after `Close` returns. -/
theorem close_delivers_all_then_closes (l : coreLogger) (t : Nat)
    (hopen : l.openFlag = true)
    (hnd : (l.Targets.map GTarget.id).Nodup)
    (hmem : t ∈ l.Targets.map GTarget.id) :
    ((coreLogger.Close l).2.filter (evAt t) =
      l.entries.map (fun e => Ev.proc t e) ++ [Ev.procSentinel t, Ev.closeT t])
    ∧ (coreLogger.Close l).1.openFlag = false
    ∧ (coreLogger.Close l).1.entries = [] := by
  unfold coreLogger.Close
  rw [if_neg (by simp [hopen])]
  refine ⟨?_, rfl, rfl⟩
  rw [processLoop_spec, List.filter_append, List.filter_append]
  rw [filter_bind_procs _ t _ hnd hmem]
  rw [filter_map_nodup t Ev.procSentinel (fun _ => rfl) _ hnd hmem]
  rw [filter_map_nodup t Ev.closeT (fun _ => rfl) _ hnd hmem]
  simp

theorem close_delivers_all_then_closes_witness :
    ((coreLogger.Close lTwoTargets).2.filter (evAt 1) =
      lTwoTargets.entries.map (fun e => Ev.proc 1 e)
        ++ [Ev.procSentinel 1, Ev.closeT 1])
    ∧ (coreLogger.Close lTwoTargets).1.openFlag = false
    ∧ (coreLogger.Close lTwoTargets).1.entries = [] :=
  close_delivers_all_then_closes lTwoTargets 1 rfl (by decide) (by decide)

/-- Claim C2: entries enqueued by a sequence of `Log` calls sit in the
queue in call order; the delivery loop processes each entry on every
active target in registration order before dequeuing the next; and the
per-target subsequence of delivered entries is exactly the enqueued
sequence (FIFO). -/
theorem fifo_delivery_per_target (lg : Logger)
    (sprintf : String → List String → String) (l : coreLogger)
    (calls : List LogCall) (t : Nat)
    (hopen : l.openFlag = true) (hinit : l.entries = [])
    (hacc : ∀ c ∈ calls, c.level ≤ l.MaxLevel)
    (hnd : (l.Targets.map GTarget.id).Nodup)
    (hmem : t ∈ l.Targets.map GTarget.id) :
    ((logMany lg sprintf l calls).entries
        = calls.map (builtEntry lg sprintf l.CallStackDepth))
    ∧ (processLoop (l.Targets.map GTarget.id)
          ((logMany lg sprintf l calls).entries.map some ++ [none])
        = (logMany lg sprintf l calls).entries.flatMap
            (fun e => (l.Targets.map GTarget.id).map (fun u => Ev.proc u e))
          ++ (l.Targets.map GTarget.id).map Ev.procSentinel)
    ∧ ((processLoop (l.Targets.map GTarget.id)
          ((logMany lg sprintf l calls).entries.map some ++ [none])).filterMap
            (realProcAt t)
        = (logMany lg sprintf l calls).entries) := by
  have hq := logMany_entries lg sprintf calls l hopen hacc
  refine ⟨by rw [hq]; simp [hinit], processLoop_spec _ _, ?_⟩
  rw [processLoop_spec, List.filterMap_append,
      filterMap_real_bind t _ _ hnd hmem, filterMap_real_sentinels]
  simp

theorem fifo_delivery_per_target_witness :
    ((logMany lg0 spf0 lTwoEmpty callsC2).entries
        = callsC2.map (builtEntry lg0 spf0 lTwoEmpty.CallStackDepth))
    ∧ (processLoop (lTwoEmpty.Targets.map GTarget.id)
          ((logMany lg0 spf0 lTwoEmpty callsC2).entries.map some ++ [none])
        = (logMany lg0 spf0 lTwoEmpty callsC2).entries.flatMap
            (fun e => (lTwoEmpty.Targets.map GTarget.id).map (fun u => Ev.proc u e))
          ++ (lTwoEmpty.Targets.map GTarget.id).map Ev.procSentinel)
    ∧ ((processLoop (lTwoEmpty.Targets.map GTarget.id)
          ((logMany lg0 spf0 lTwoEmpty callsC2).entries.map some ++ [none])).filterMap
            (realProcAt 0)
        = (logMany lg0 spf0 lTwoEmpty callsC2).entries) :=
  fifo_delivery_per_target lg0 spf0 lTwoEmpty callsC2 0 rfl rfl
    (by decide) (by decide) (by decide)

/-- Claim C3: on an open dispatcher an entry is accepted by `Log` exactly
when its rank is at most the configured maximum, and a target filter with
max level L2 allows every entry of rank at most L2 (hence both L1 and L2
for L1 at most L2) and rejects every entry of rank strictly above L2. -/
theorem level_filtering_le_max (lg : Logger) (l : coreLogger) (level : Level)
    (format : String) (a : List String)
    (sprintf : String → List String → String) (now : Nat) (stack : String)
    (hopen : l.openFlag = true) :
    ((Logger.Log lg l level format a sprintf now stack).2.isSome
        ↔ level ≤ l.MaxLevel)
    ∧ (∀ (f : Filter) (e : Entry), e.Level ≤ f.MaxLevel → f.Allow e = true)
    ∧ (∀ (f : Filter) (e : Entry), f.MaxLevel < e.Level → f.Allow e = false) := by
  refine ⟨?_, ?_, ?_⟩
  · by_cases hlev : level ≤ l.MaxLevel
    · rw [log_accepted lg l level format a sprintf now stack hopen hlev]
      simpa using hlev
    · rw [log_rejected lg l level format a sprintf now stack
        (Or.inl (not_le.mp hlev))]
      simpa using hlev
  · intro f e h
    simp [Filter.Allow, h]
  · intro f e h
    have hn : ¬ e.Level ≤ f.MaxLevel := not_le.mpr h
    simp [Filter.Allow, hn]

theorem level_filtering_le_max_witness :
    ((Logger.Log lg0 lOpen LevelError "boom" [] spf0 0 "").2.isSome
        ↔ LevelError ≤ lOpen.MaxLevel)
    ∧ (∀ (f : Filter) (e : Entry), e.Level ≤ f.MaxLevel → f.Allow e = true)
    ∧ (∀ (f : Filter) (e : Entry), f.MaxLevel < e.Level → f.Allow e = false) :=
  level_filtering_le_max lg0 lOpen LevelError "boom" [] spf0 0 "" rfl

/-- Claim C4: a `Log` call on a dispatcher that is not open returns with
no observable effect — the core state is returned unchanged (nothing is
enqueued, so no target is ever invoked for it) and no entry is built. -/
theorem log_when_not_open_is_noop (lg : Logger) (l : coreLogger)
    (level : Level) (format : String) (a : List String)
    (sprintf : String → List String → String) (now : Nat) (stack : String)
    (h : l.openFlag = false) :
    Logger.Log lg l level format a sprintf now stack = (l, none) :=
  log_rejected lg l level format a sprintf now stack (Or.inr h)

theorem log_when_not_open_is_noop_witness :
    Logger.Log lg0 lClosed LevelInfo "hello %s" ["x"] spf0 0 "" = (lClosed, none) :=
  log_when_not_open_is_noop lg0 lClosed LevelInfo "hello %s" ["x"] spf0 0 "" rfl

/-- Claim C5: when a registered target fails its `Open` during dispatcher
`Open`, the failure is written to the error writer, the target is dropped
from the active set, and no event of the dispatcher lifetime (delivery of
any queue, the sentinel, the target `Close` round) is addressed to it. -/
theorem failed_open_target_gets_nothing (l : coreLogger) (tg : GTarget)
    (q : List Entry) (msg : String)
    (hopen : l.openFlag = false)
    (hew : l.ErrorWriterSet = true)
    (hbuf : 0 ≤ l.BufferSize) (hdep : 0 ≤ l.CallStackDepth)
    (hmem : tg ∈ l.Targets) (herr : tg.openErr = some msg)
    (hid : ∀ u ∈ l.Targets, u.id = tg.id → u.openErr.isSome) :
    ("Failed to open target: " ++ msg) ∈ (coreLogger.Open l).2.2
    ∧ tg ∉ (coreLogger.Open l).1.Targets
    ∧ (∀ ev ∈ (coreLogger.Close
          { (coreLogger.Open l).1 with entries := q }).2,
        evAt tg.id ev = false) := by
  have hO : coreLogger.Open l =
      ({ l with entries := [],
                Targets := l.Targets.filter (fun u => u.openErr.isNone),
                loopStarted := true, openFlag := true },
       none,
       (l.Targets.filter (fun u => u.openErr.isSome)).map
         (fun u => "Failed to open target: " ++ u.openErr.getD "")) := by
    unfold coreLogger.Open
    rw [if_neg (by simp [hopen]), if_neg (by simp [hew]),
        if_neg (not_lt.mpr hbuf), if_neg (not_lt.mpr hdep)]
  have hkept : ∀ u ∈ l.Targets.filter (fun u => u.openErr.isNone),
      u.id ≠ tg.id := by
    intro u hu heq
    rcases List.mem_filter.mp hu with ⟨humem, hnone⟩
    have hsome := hid u humem heq
    cases hval : u.openErr with
    | none => rw [hval] at hsome; simp at hsome
    | some v => rw [hval] at hnone; simp at hnone
  refine ⟨?_, ?_, ?_⟩
  · rw [hO]
    refine List.mem_map.mpr ⟨tg, List.mem_filter.mpr ⟨hmem, by simp [herr]⟩, ?_⟩
    simp [herr]
  · rw [hO]
    intro hcontra
    exact hkept tg hcontra rfl
  · intro ev hev
    rw [hO] at hev
    simp only [coreLogger.Close] at hev
    rw [if_neg (by simp)] at hev
    have hin : evTid ev ∈ (l.Targets.filter
        (fun u => u.openErr.isNone)).map GTarget.id := by
      rcases List.mem_append.mp hev with h | h
      · exact evTid_mem_processLoop _ _ ev h
      · rcases List.mem_map.mp h with ⟨u, hu, rfl⟩
        exact hu
    rcases List.mem_map.mp hin with ⟨u, hu, hid2⟩
    have : evTid ev ≠ tg.id := hid2 ▸ hkept u hu
    simp [evAt, this]

theorem failed_open_target_gets_nothing_witness :
    ("Failed to open target: " ++ "no tty") ∈ (coreLogger.Open lOneBad).2.2
    ∧ (⟨1, some "no tty"⟩ : GTarget) ∉ (coreLogger.Open lOneBad).1.Targets
    ∧ (∀ ev ∈ (coreLogger.Close
          { (coreLogger.Open lOneBad).1 with entries := [e1] }).2,
        evAt (1 : Nat) ev = false) :=
  failed_open_target_gets_nothing lOneBad ⟨1, some "no tty"⟩ [e1] "no tty"
    rfl rfl (by decide) (by decide) (by decide) rfl (by decide)

/-- Claim C6: `Open` on a dispatcher that is not already open returns an
error exactly when the error writer is unset, the buffer size is negative
or the call-stack depth is negative, and in the error case the state is
returned untouched: the dispatcher is not open and no delivery loop has
been started. -/
theorem open_validates_config (l : coreLogger) (h : l.openFlag = false) :
    ((coreLogger.Open l).2.1.isSome ↔
      (l.ErrorWriterSet = false ∨ l.BufferSize < 0 ∨ l.CallStackDepth < 0))
    ∧ ((coreLogger.Open l).2.1.isSome →
        (coreLogger.Open l).1 = l ∧ (coreLogger.Open l).1.openFlag = false
          ∧ (coreLogger.Open l).1.loopStarted = l.loopStarted) := by
  unfold coreLogger.Open
  rw [if_neg (by simp [h])]
  by_cases h1 : l.ErrorWriterSet = false
  · simp [h1, h]
  · by_cases h2 : l.BufferSize < 0
    · simp [h1, h2, h]
    · by_cases h3 : l.CallStackDepth < 0
      · simp [h1, h2, h3, h]
      · simp [h1, h2, h3]

theorem open_validates_config_witness :
    ((coreLogger.Open lBadBuf).2.1.isSome ↔
      (lBadBuf.ErrorWriterSet = false ∨ lBadBuf.BufferSize < 0
        ∨ lBadBuf.CallStackDepth < 0))
    ∧ ((coreLogger.Open lBadBuf).2.1.isSome →
        (coreLogger.Open lBadBuf).1 = lBadBuf
          ∧ (coreLogger.Open lBadBuf).1.openFlag = false
          ∧ (coreLogger.Open lBadBuf).1.loopStarted = lBadBuf.loopStarted) :=
  open_validates_config lBadBuf rfl

/-- Claim C8: an accepted `Log` call builds its entry message from the
format string used verbatim when no variadic arguments are supplied, and
from the sprintf substitution of the arguments into the format string
when at least one is supplied. -/
theorem log_message_formatting (lg : Logger) (l : coreLogger) (level : Level)
    (format : String) (a : List String)
    (sprintf : String → List String → String) (now : Nat) (stack : String)
    (hopen : l.openFlag = true) (hlev : level ≤ l.MaxLevel) :
    (a = [] → ∃ e, (Logger.Log lg l level format a sprintf now stack).2 = some e
        ∧ e.Message = format)
    ∧ (a ≠ [] → ∃ e, (Logger.Log lg l level format a sprintf now stack).2 = some e
        ∧ e.Message = sprintf format a) := by
  rw [log_accepted lg l level format a sprintf now stack hopen hlev]
  constructor
  · intro ha
    refine ⟨_, rfl, ?_⟩
    simp [builtEntry, ha]
  · intro ha
    refine ⟨_, rfl, ?_⟩
    have hlen : 0 < a.length := by
      cases a with
      | nil => exact absurd rfl ha
      | cons x xs => simp
    simp [builtEntry, hlen]

theorem log_message_formatting_witness :
    ∃ e, (Logger.Log lg0 lOpen LevelInfo "count=%d" [] spf0 0 "").2 = some e
      ∧ e.Message = "count=%d" :=
  (log_message_formatting lg0 lOpen LevelInfo "count=%d" [] spf0 0 ""
    rfl (by decide)).1 rfl

lemma consoleProcess_fst (t : ConsoleTarget) (e : Option Entry) :
    (t.Process e).1 = t := by
  cases e with
  | none => rfl
  | some e =>
    simp only [ConsoleTarget.Process]
    by_cases h : t.filter.Allow e
    · simp [h]
    · simp [h]

lemma foldl_consoleProcess_fst (es : List Entry) : ∀ t : ConsoleTarget,
    es.foldl (fun acc e => (acc.Process (some e)).1) t = t := by
  induction es with
  | nil => intro t; rfl
  | cons e rest ih =>
    intro t
    rw [List.foldl_cons, consoleProcess_fst]
    exact ih t

lemma startBlock_fst (t : ConsoleTarget) (cat : String) (E : Option Entry) :
    (t.StartLogDetailsBlock cat E).1 = t := by
  show (t.Process E).1 = t
  exact consoleProcess_fst t E

/-- A fresh details-capable console target as `NewConsoleTarget` leaves
it: max level Debug, colour on, and the embedded `DetailsInfo` at its Go
zero value (`MinLogLevel` = 0). -/
def ct0 : ConsoleTarget :=
  { filter := ⟨LevelDbg⟩, ColorMode := true,
    details := { DoingDetails := false, MinLogLevel := 0, Category := "",
                 Subcategory := "", formatter := fun _ _ => "" },
    Category := "", Subcategory := "" }

/-- The header entry of the concrete details block. -/
def eHdr : Entry :=
  { Level := LevelInfo, Category := "cat", Message := "header",
    Time := 0, CallStack := "", FormattedMessage := "header" }

/-- The single in-block entry of the failing input, at level Error. -/
def eErrC7 : Entry :=
  { Level := LevelError, Category := "cat", Message := "bad",
    Time := 1, CallStack := "", FormattedMessage := "bad" }

/-- Claim C7 (refuted by the code): a details-block round trip never
changes the target at all — `StartLogDetailsBlock` mutates only a local
copy of the embedded-by-value `DetailsInfo`, `Process` never touches
`MinLogLevel`, and `CloseLogDetailsBlock` has an empty body — so on the
concrete failing input (one in-block entry at level Error) the tracked
`MinLogLevel` stays at its prior value 0 instead of becoming the most
severe in-block level, 3. -/
theorem details_block_does_not_track_minloglevel :
    (∀ (t : ConsoleTarget) (cat : String) (e0 : Entry) (es : List Entry)
        (s : String), detailsRoundTrip t cat e0 es s = t)
    ∧ (detailsRoundTrip ct0 "cat" eHdr [eErrC7] "s").details.MinLogLevel = 0
    ∧ eErrC7.Level = LevelError
    ∧ (0 : Level) ≠ LevelError := by
  have hrt : ∀ (t : ConsoleTarget) (cat : String) (e0 : Entry)
      (es : List Entry) (s : String), detailsRoundTrip t cat e0 es s = t := by
    intro t cat e0 es s
    unfold detailsRoundTrip
    simp only [ConsoleTarget.CloseLogDetailsBlock, startBlock_fst]
    exact foldl_consoleProcess_fst es t
  refine ⟨hrt, ?_, rfl, by decide⟩
  rw [hrt]
  rfl

/-- A colour-mode console target for the escape-sequence claim. -/
def ctC9 : ConsoleTarget :=
  { ct0 with ColorMode := true }

/-- An allowed entry whose formatted message already carries an ANSI
escape sequence. -/
def eEsc : Entry :=
  { Level := LevelInfo, Category := "app", Message := "ok",
    Time := 0, CallStack := "", FormattedMessage := "\x1b[32mok\x1b[0m" }

/-- Claim C9: with colour mode on, an allowed entry whose formatted
message already contains `"\033["` is written unchanged, and the level
brush is applied only when the message does not contain an escape
sequence (and a brush exists for the level). -/
theorem escape_message_written_unchanged (t : ConsoleTarget) (e : Entry)
    (hcm : t.ColorMode = true) (hallow : t.filter.Allow e = true) :
    (strContains e.FormattedMessage escSeq = true →
      (t.Process (some e)).2 = [e.FormattedMessage])
    ∧ (strContains e.FormattedMessage escSeq = false →
        ∀ b, Brushes e.Level = some b →
          (t.Process (some e)).2 = [b e.FormattedMessage]) := by
  constructor
  · intro hc
    simp [ConsoleTarget.Process, hallow, hcm, Entry.String, hc]
  · intro hc b hb
    simp [ConsoleTarget.Process, hallow, hcm, Entry.String, hc, hb]

theorem escape_message_written_unchanged_witness :
    (ctC9.Process (some eEsc)).2 = [eEsc.FormattedMessage] :=
  (escape_message_written_unchanged ctC9 eEsc rfl (by decide)).1 (by decide)

/-- A file target whose descriptor is nil, as left behind by a rotation
whose reopen failed. -/
def ftNil : FileTarget :=
  { filter := ⟨LevelInfo⟩, FileName := "app.log", Rotate := true,
    BackupCount := 10, MaxBytes := 1048576, fd := none,
    currentBytes := 0, reopenOk := false }

/-- Claim C10: `FileTarget.Process` on a real entry with a nil descriptor
is a silent no-op — the state (including the nil descriptor) is unchanged,
no line is written to the file and nothing goes to the error writer — and
therefore every subsequent entry is dropped the same way. -/
theorem nil_fd_process_is_silent_noop (t : FileTarget) (e : Entry)
    (es : List Entry) (h : t.fd = none) :
    t.Process (some e) = (t, [], [])
    ∧ t.processAll es = (t, [], []) := by
  have hp : ∀ e : Entry, t.Process (some e) = (t, [], []) := by
    intro e
    simp [FileTarget.Process, h]
  refine ⟨hp e, ?_⟩
  induction es with
  | nil => rfl
  | cons e rest ih =>
    simp only [FileTarget.processAll, hp]
    simpa using ih

theorem nil_fd_process_is_silent_noop_witness :
    FileTarget.Process ftNil (some e1) = (ftNil, [], [])
    ∧ FileTarget.processAll ftNil [e1, e2] = (ftNil, [], []) :=
  nil_fd_process_is_silent_noop ftNil e1 [e1, e2] rfl

end Mlog
